import Mathlib

set_option maxRecDepth 100000

/-!
Verification of the Transcriber pipeline (gpt4-note-translater.py, app.py,
export_responses.py) against its natural-language specification.

The Python sources are shallowly embedded: pure helpers become Lean
functions, the per-folder processing loop becomes an explicit state-passing
function over the loaded cache and the persisted file, and the external
model calls are supplied as explicit per-image outcomes.  Python exceptions
are modelled with `Except PyErr`.
-/

namespace Transcriber

/-- Python exception classes that the embedded code can raise. -/
inductive PyErr where
  | typeError
  | keyError
  | valueError
  | attributeError
  | indexError
  | apiError
  deriving DecidableEq, Repr

/-- JSON values as produced by Python's `json.loads`.  Numbers are
restricted to integers in this development (no claim depends on
fractional numbers); object members keep textual order. -/
inductive Json where
  | null
  | bool (b : Bool)
  | num (n : Int)
  | str (s : String)
  | arr (xs : List Json)
  | obj (kvs : List (String × Json))

/-- Boolean equality on the hashable (scalar) JSON values; Python's
`set` construction raises `TypeError` on list or dict elements before
equality is ever consulted, so arrays and objects compare as `false`
here and are rejected separately. -/
def Json.scalarBeq : Json → Json → Bool
  | .null, .null => true
  | .bool a, .bool b => a == b
  | .num a, .num b => a == b
  | .str a, .str b => a == b
  | _, _ => false

/-- Association lookup inside a JSON object, i.e. Python `d[k]` /
`d.get(k)` for a dict `d` (first binding wins, matching Python dict
semantics since the embedded objects never repeat keys). -/
def Json.lookup : List (String × Json) → String → Option Json
  | [], _ => none
  | (k, v) :: rest, key => if k = key then some v else Json.lookup rest key

/-- Python truthiness of a JSON value (`if x:`). -/
def Json.truthy : Json → Bool
  | .null => false
  | .bool b => b
  | .num n => n != 0
  | .str s => s != ""
  | .arr xs => !xs.isEmpty
  | .obj kvs => !kvs.isEmpty

/-- Python `d.get(key, default)` on a dict embedded as `Json.obj`. -/
def Json.getD (kvs : List (String × Json)) (key : String) (d : Json) : Json :=
  (Json.lookup kvs key).getD d

/-! ## Lexicographic order on strings (Python's `sorted` on `str`).

Python compares strings lexicographically by Unicode code points; Lean's
built-in `String` order does not kernel-reduce, so we define the same
order on the underlying character lists. -/

/-- Code-point-lexicographic `≤` on character lists, as used by Python's
`sorted` for strings. -/
def lexLe : List Char → List Char → Bool
  | [], _ => true
  | _ :: _, [] => false
  | a :: as, b :: bs =>
    if a.toNat < b.toNat then true
    else if b.toNat < a.toNat then false
    else lexLe as bs

/-- The order used on filenames: `lexLe` on the code-point sequences. -/
def strLe (a b : String) : Prop := lexLe a.data b.data = true

instance : DecidableRel strLe := fun a b => by
  unfold strLe; infer_instance

theorem Char.eq_of_toNat_eq {a b : Char} (h : a.toNat = b.toNat) : a = b := by
  apply Char.eq_of_val_eq
  apply UInt32.eq_of_toBitVec_eq
  exact BitVec.eq_of_toNat_eq h

theorem lexLe_cons (x y : Char) (xs ys : List Char) :
    lexLe (x :: xs) (y :: ys) =
      if x.toNat < y.toNat then true
      else if y.toNat < x.toNat then false
      else lexLe xs ys := rfl

theorem lexLe_total (a b : List Char) : lexLe a b = true ∨ lexLe b a = true := by
  induction a generalizing b with
  | nil => left; rfl
  | cons x xs ih =>
    cases b with
    | nil => right; rfl
    | cons y ys =>
      rw [lexLe_cons, lexLe_cons]
      rcases Nat.lt_trichotomy x.toNat y.toNat with h | h | h
      · left; simp [h]
      · have hxy : ¬ x.toNat < y.toNat := by omega
        have hyx : ¬ y.toNat < x.toNat := by omega
        rcases ih ys with h' | h'
        · left; simp [hxy, hyx, h']
        · right; simp [hxy, hyx, h']
      · right; simp [h]

theorem lexLe_cons_iff (x y : Char) (xs ys : List Char) :
    lexLe (x :: xs) (y :: ys) = true ↔
      x.toNat < y.toNat ∨ (x.toNat = y.toNat ∧ lexLe xs ys = true) := by
  rw [lexLe_cons]
  by_cases h1 : x.toNat < y.toNat
  · simp [h1]
  · by_cases h2 : y.toNat < x.toNat
    · simp only [if_neg h1, if_pos h2]
      constructor
      · intro h; exact absurd h (by simp)
      · intro h; omega
    · have h3 : x.toNat = y.toNat := by omega
      simp [h1, h2, h3]

theorem lexLe_trans {a b c : List Char} (hab : lexLe a b = true)
    (hbc : lexLe b c = true) : lexLe a c = true := by
  induction a generalizing b c with
  | nil => rfl
  | cons x xs ih =>
    cases b with
    | nil => simp [lexLe] at hab
    | cons y ys =>
      cases c with
      | nil => simp [lexLe] at hbc
      | cons z zs =>
        rw [lexLe_cons_iff] at hab hbc ⊢
        rcases hab with hab | ⟨hab, hab'⟩
        · rcases hbc with hbc | ⟨hbc, _⟩
          · left; omega
          · left; omega
        · rcases hbc with hbc | ⟨hbc, hbc'⟩
          · left; omega
          · right; exact ⟨by omega, ih hab' hbc'⟩

theorem lexLe_antisymm {a b : List Char} (hab : lexLe a b = true)
    (hba : lexLe b a = true) : a = b := by
  induction a generalizing b with
  | nil =>
    cases b with
    | nil => rfl
    | cons y ys => simp [lexLe] at hba
  | cons x xs ih =>
    cases b with
    | nil => simp [lexLe] at hab
    | cons y ys =>
      rw [lexLe_cons_iff] at hab hba
      rcases hab with hab | ⟨hab, hab'⟩
      · rcases hba with hba | ⟨hba, _⟩ <;> omega
      · rcases hba with hba | ⟨hba, hba'⟩
        · omega
        · rw [Char.eq_of_toNat_eq hab, ih hab' hba']

instance : IsTotal String strLe :=
  ⟨fun a b => lexLe_total a.data b.data⟩

instance : IsTrans String strLe :=
  ⟨fun _ _ _ hab hbc => lexLe_trans hab hbc⟩

instance : IsAntisymm String strLe :=
  ⟨fun a b hab hba => String.ext (lexLe_antisymm hab hba)⟩

/-- Python `sorted(set(filenames))`: de-duplicate, then sort by the
code-point order.  (Python's `set` iteration order is irrelevant here
because the result is sorted.) -/
def sortedSet (filenames : List String) : List String :=
  List.insertionSort strLe filenames.dedup

/-- Characters stripped by Python's default `str.strip()` (the
`str.isspace` whitespace set). -/
def pyIsSpace (c : Char) : Bool :=
  let n := c.toNat
  (0x09 ≤ n && n ≤ 0x0d) || n == 0x20 || (0x1c ≤ n && n ≤ 0x1f) ||
    n == 0x85 || n == 0xa0 || n == 0x1680 ||
    (0x2000 ≤ n && n ≤ 0x200a) || n == 0x2028 || n == 0x2029 ||
    n == 0x202f || n == 0x205f || n == 0x3000

/-- Python `str.strip()` on a code-point list. -/
def pythonStrip (cs : List Char) : List Char :=
  ((cs.dropWhile pyIsSpace).reverse.dropWhile pyIsSpace).reverse

/-! ## MD5 and `generate_uuid`.

`hashlib.md5(...).hexdigest()` is Python standard-library code; it is
embedded here as a full executable MD5 over the UTF-8 bytes of the input
string, with all 32-bit machine arithmetic expressed as `Nat` modulo
`2 ^ 32`. -/

/-- UTF-8 encoding of one Unicode scalar value (what Python's
`str.encode()` does per character). -/
def utf8EncodeCh (c : Char) : List Nat :=
  let n := c.toNat
  if n < 0x80 then [n]
  else if n < 0x800 then
    [0xC0 + n / 0x40, 0x80 + n % 0x40]
  else if n < 0x10000 then
    [0xE0 + n / 0x1000, 0x80 + (n / 0x40) % 0x40, 0x80 + n % 0x40]
  else
    [0xF0 + n / 0x40000, 0x80 + (n / 0x1000) % 0x40,
     0x80 + (n / 0x40) % 0x40, 0x80 + n % 0x40]

/-- UTF-8 bytes of a string (Python `s.encode()`). -/
def utf8Bytes (s : String) : List Nat :=
  s.data.bind utf8EncodeCh

/-- The 64 per-round MD5 sine constants. -/
def md5K : List Nat :=
  [0xd76aa478, 0xe8c7b756, 0x242070db, 0xc1bdceee,
   0xf57c0faf, 0x4787c62a, 0xa8304613, 0xfd469501,
   0x698098d8, 0x8b44f7af, 0xffff5bb1, 0x895cd7be,
   0x6b901122, 0xfd987193, 0xa679438e, 0x49b40821,
   0xf61e2562, 0xc040b340, 0x265e5a51, 0xe9b6c7aa,
   0xd62f105d, 0x02441453, 0xd8a1e681, 0xe7d3fbc8,
   0x21e1cde6, 0xc33707d6, 0xf4d50d87, 0x455a14ed,
   0xa9e3e905, 0xfcefa3f8, 0x676f02d9, 0x8d2a4c8a,
   0xfffa3942, 0x8771f681, 0x6d9d6122, 0xfde5380c,
   0xa4beea44, 0x4bdecfa9, 0xf6bb4b60, 0xbebfbc70,
   0x289b7ec6, 0xeaa127fa, 0xd4ef3085, 0x04881d05,
   0xd9d4d039, 0xe6db99e5, 0x1fa27cf8, 0xc4ac5665,
   0xf4292244, 0x432aff97, 0xab9423a7, 0xfc93a039,
   0x655b59c3, 0x8f0ccc92, 0xffeff47d, 0x85845dd1,
   0x6fa87e4f, 0xfe2ce6e0, 0xa3014314, 0x4e0811a1,
   0xf7537e82, 0xbd3af235, 0x2ad7d2bb, 0xeb86d391]

/-- The 64 per-round MD5 left-rotation amounts. -/
def md5S : List Nat :=
  [7, 12, 17, 22, 7, 12, 17, 22, 7, 12, 17, 22, 7, 12, 17, 22,
   5,  9, 14, 20, 5,  9, 14, 20, 5,  9, 14, 20, 5,  9, 14, 20,
   4, 11, 16, 23, 4, 11, 16, 23, 4, 11, 16, 23, 4, 11, 16, 23,
   6, 10, 15, 21, 6, 10, 15, 21, 6, 10, 15, 21, 6, 10, 15, 21]

/-- 32-bit word: keep `Nat` values reduced modulo `2 ^ 32`. -/
def w32 (n : Nat) : Nat := n % 4294967296

/-- Bitwise complement on 32-bit words. -/
def wnot (x : Nat) : Nat := 4294967295 - w32 x

/-- 32-bit left rotation. -/
def rotl32 (x s : Nat) : Nat :=
  w32 (w32 x * 2 ^ (s % 32) + w32 x / 2 ^ (32 - s % 32))

/-- MD5 message padding: append `0x80`, zero-fill to 56 mod 64, append
the 8-byte little-endian bit length. -/
def md5Pad (msg : List Nat) : List Nat :=
  let bitLen := msg.length * 8
  let padLen := (55 + 64 - msg.length % 64) % 64 + 1
  msg ++ (0x80 :: List.replicate (padLen - 1) 0) ++
    (List.range 8).map (fun i => bitLen / 2 ^ (8 * i) % 256)

/-- Little-endian 32-bit words from a 64-byte chunk. -/
def chunkWords (chunk : List Nat) : List Nat :=
  (List.range 16).map (fun i =>
    chunk.getD (4 * i) 0 + chunk.getD (4 * i + 1) 0 * 256 +
    chunk.getD (4 * i + 2) 0 * 65536 + chunk.getD (4 * i + 3) 0 * 16777216)

/-- One of the 64 MD5 rounds. -/
def md5Round (m : List Nat) (st : Nat × Nat × Nat × Nat) (i : Nat) :
    Nat × Nat × Nat × Nat :=
  let (a, b, c, d) := st
  let (f, g) :=
    if i < 16 then ((b &&& c) ||| (wnot b &&& d), i)
    else if i < 32 then ((d &&& b) ||| (wnot d &&& c), (5 * i + 1) % 16)
    else if i < 48 then (b ^^^ c ^^^ d, (3 * i + 5) % 16)
    else (c ^^^ (b ||| wnot d), (7 * i) % 16)
  let f := w32 (f + a + md5K.getD i 0 + m.getD g 0)
  (d, w32 (b + rotl32 f (md5S.getD i 0)), b, c)

/-- Process one 64-byte chunk, updating the running state. -/
def md5Chunk (st : Nat × Nat × Nat × Nat) (chunk : List Nat) :
    Nat × Nat × Nat × Nat :=
  let m := chunkWords chunk
  let (a, b, c, d) := (List.range 64).foldl (md5Round m) st
  let (a0, b0, c0, d0) := st
  (w32 (a0 + a), w32 (b0 + b), w32 (c0 + c), w32 (d0 + d))

/-- Split a message into 64-byte chunks; the first argument is a
structural-recursion fuel, sufficient whenever it is at least the
message length (each step consumes at least one byte). -/
def chunksAux : Nat → List Nat → List (List Nat)
  | 0, _ => []
  | _ + 1, [] => []
  | fuel + 1, msg => msg.take 64 :: chunksAux fuel (msg.drop 64)

/-- Split a padded message into 64-byte chunks. -/
def chunks64 (msg : List Nat) : List (List Nat) :=
  chunksAux msg.length msg

/-- The four state words of the MD5 digest of a byte sequence. -/
def md5Words (msg : List Nat) : List Nat :=
  let st := (chunks64 (md5Pad msg)).foldl md5Chunk
    (0x67452301, 0xefcdab89, 0x98badcfe, 0x10325476)
  [st.1, st.2.1, st.2.2.1, st.2.2.2]

/-- Little-endian bytes of a 32-bit word. -/
def wordLEBytes (x : Nat) : List Nat :=
  [x % 256, x / 256 % 256, x / 65536 % 256, x / 16777216 % 256]

/-- The ten decimal digit characters. -/
def decDigitChars : List Char :=
  ['0', '1', '2', '3', '4', '5', '6', '7', '8', '9']

/-- The sixteen lowercase hexadecimal digits. -/
def hexDigits : List Char :=
  decDigitChars ++ ['a', 'b', 'c', 'd', 'e', 'f']

/-- One hexadecimal digit character. -/
def hexDigit (n : Nat) : Char := hexDigits.getD n '0'

/-- Two-digit lowercase hex of one byte. -/
def byteHex (b : Nat) : List Char := [hexDigit (b / 16), hexDigit (b % 16)]

/-- `hashlib.md5(s.encode()).hexdigest()`: the 32-character lowercase hex
digest of the UTF-8 bytes of `s`. -/
def md5Hex (s : String) : String :=
  String.mk (((md5Words (utf8Bytes s)).bind wordLEBytes).bind byteHex)

/-- The pre-hash identity string of `generate_uuid`:
`f"{'-'.join(sorted(set(filenames)))}-{model}"`. -/
def uniqueString (filenames : List String) (model : String) : String :=
  String.intercalate "-" (sortedSet filenames) ++ "-" ++ model

/-- `generate_uuid(filenames, model)` from gpt4-note-translater.py:
raises `ValueError` on an empty filename list, otherwise the MD5 hex
digest of the joined sorted de-duplicated filenames plus the model. -/
def generate_uuid (filenames : List String) (model : String) :
    Except PyErr String :=
  if filenames = [] then .error .valueError
  else .ok (md5Hex (uniqueString filenames model))

theorem sortedSet_eq_of_toFinset_eq {F1 F2 : List String}
    (hset : F1.toFinset = F2.toFinset) : sortedSet F1 = sortedSet F2 := by
  have hperm : F1.dedup.Perm F2.dedup :=
    List.toFinset_eq_iff_perm_dedup.mp hset
  have hps : (List.insertionSort strLe F1.dedup).Perm
      (List.insertionSort strLe F2.dedup) :=
    (List.perm_insertionSort strLe F1.dedup).trans
      (hperm.trans (List.perm_insertionSort strLe F2.dedup).symm)
  exact List.eq_of_perm_of_sorted hps
    (List.sorted_insertionSort strLe F1.dedup)
    (List.sorted_insertionSort strLe F2.dedup)

theorem hexDigit_mem {n : Nat} (h : n < 16) : hexDigit n ∈ hexDigits := by
  interval_cases n <;> decide

theorem md5Hex_shape (s : String) :
    (md5Hex s).length = 32 ∧ ∀ c ∈ (md5Hex s).data, c ∈ hexDigits := by
  constructor
  · show (String.mk _).length = 32
    simp [String.length, md5Words, wordLEBytes, byteHex, List.bind]
  · intro c hc
    simp only [md5Hex] at hc
    rw [List.mem_bind] at hc
    obtain ⟨b, hb, hcb⟩ := hc
    rw [List.mem_bind] at hb
    obtain ⟨w, _, hbw⟩ := hb
    have hb256 : b < 256 := by
      simp only [wordLEBytes, List.mem_cons, List.not_mem_nil, or_false] at hbw
      rcases hbw with h | h | h | h <;> rw [h] <;> exact Nat.mod_lt _ (by omega)
    simp only [byteHex, List.mem_cons, List.not_mem_nil, or_false] at hcb
    rcases hcb with h | h <;> rw [h]
    · exact hexDigit_mem (Nat.div_lt_of_lt_mul (by omega))
    · exact hexDigit_mem (Nat.mod_lt _ (by omega))

/-- C5.  Fingerprint permutation-stability: `generate_uuid` gives the
same digest for any two non-empty filename lists with the same
underlying set of filenames (any order, any duplication) and the same
model identifier; the fingerprint depends only on the sorted
de-duplicated filename set plus the model, never on the group name or
the run. -/
theorem generate_uuid_permutation_stable (F1 F2 : List String) (m : String)
    (h1 : F1 ≠ []) (h2 : F2 ≠ []) (hset : F1.toFinset = F2.toFinset) :
    generate_uuid F1 m = generate_uuid F2 m := by
  unfold generate_uuid
  rw [if_neg h1, if_neg h2]
  unfold uniqueString
  rw [sortedSet_eq_of_toFinset_eq hset]

theorem generate_uuid_permutation_stable_witness :
    ["b.jpg", "a.jpg", "a.jpg"] ≠ ([] : List String) ∧
    ["a.jpg", "b.jpg"] ≠ ([] : List String) ∧
    generate_uuid ["b.jpg", "a.jpg", "a.jpg"] "gpt-4o" =
      generate_uuid ["a.jpg", "b.jpg"] "gpt-4o" :=
  ⟨by decide, by decide,
    generate_uuid_permutation_stable _ _ _ (by decide) (by decide) (by decide)⟩

/-- C10.  Fingerprint precondition: `generate_uuid` raises `ValueError`
exactly on an empty filename list, and on every non-empty list it
returns (without raising) a 32-character lowercase-hex digest string. -/
theorem generate_uuid_empty_spec (F : List String) (m : String) :
    (F = [] → generate_uuid F m = .error .valueError) ∧
    (F ≠ [] → ∃ h, generate_uuid F m = .ok h ∧ h.length = 32 ∧
      ∀ c ∈ h.data, c ∈ hexDigits) := by
  constructor
  · intro h
    simp [generate_uuid, h]
  · intro h
    refine ⟨md5Hex (uniqueString F m), ?_, (md5Hex_shape _).1, (md5Hex_shape _).2⟩
    simp [generate_uuid, h]

theorem generate_uuid_empty_spec_witness :
    (generate_uuid [] "gpt-4o" = .error .valueError) ∧
    ∃ h, generate_uuid ["a.jpg"] "gpt-4o" = .ok h ∧ h.length = 32 ∧
      ∀ c ∈ h.data, c ∈ hexDigits :=
  ⟨(generate_uuid_empty_spec [] "gpt-4o").1 rfl,
    (generate_uuid_empty_spec ["a.jpg"] "gpt-4o").2 (by decide)⟩

/-! ## Date normalizer (`parse_date_string`).

The embedded `datetime.strptime` / `strftime` pair covers exactly the
eight formats listed in the source.  Python's strptime accepts one or
two digits for `%d` / `%m` (value-checked against the regex alternates,
equivalent to a 1..31 / 1..12 range check here because every format
separates numeric fields with non-digits), exactly four digits for
`%Y`, case-insensitive three-letter English month abbreviations for
`%b`, and one-or-more whitespace for a space in the format; the full
input must be consumed, and the resulting calendar date must be valid
(`datetime` raises for day 31 of a 30-day month, Feb 29 off leap years,
or year 0). -/

/-- A parsed calendar date. -/
structure DateYMD where
  y : Nat
  m : Nat
  d : Nat
  deriving DecidableEq, Repr

/-- Chronological sort key of a date (`datetime` comparison). -/
def dateKey (x : DateYMD) : Nat := x.y * 10000 + x.m * 100 + x.d

/-- English three-letter month abbreviations, as in the C locale. -/
def monthAbbrevs : List String :=
  ["Jan", "Feb", "Mar", "Apr", "May", "Jun",
   "Jul", "Aug", "Sep", "Oct", "Nov", "Dec"]

/-- Leap-year rule of the proleptic Gregorian calendar (Python
`calendar.isleap`). -/
def isLeap (y : Nat) : Bool :=
  y % 4 == 0 && (y % 100 != 0 || y % 400 == 0)

/-- Days in a month (`datetime` validation). -/
def daysInMonth (y m : Nat) : Nat :=
  if m = 2 then (if isLeap y then 29 else 28)
  else if m = 4 || m = 6 || m = 9 || m = 11 then 30
  else 31

/-- `datetime(year, month, day)` constructor validity. -/
def validDate (x : DateYMD) : Bool :=
  1 ≤ x.y && x.y ≤ 9999 && 1 ≤ x.m && x.m ≤ 12 &&
    1 ≤ x.d && x.d ≤ daysInMonth x.y x.m

/-- Numeric value of a digit run. -/
def digitsVal (ds : List Char) : Nat :=
  ds.foldl (fun a c => a * 10 + (c.toNat - 48)) 0

/-- Take up to `k` leading decimal digits. -/
def takeDigits : Nat → List Char → List Char × List Char
  | 0, cs => ([], cs)
  | _ + 1, [] => ([], [])
  | k + 1, c :: cs =>
    if c.isDigit then
      let (ds, rest) := takeDigits k cs
      (c :: ds, rest)
    else ([], c :: cs)

/-- Lower-case a character list (ASCII). -/
def lowerChars (cs : List Char) : List Char := cs.map Char.toLower

/-- Match a three-letter month abbreviation case-insensitively,
returning the month number (1..12) and the rest. -/
def matchMonthAbbrev (cs : List Char) : Option (Nat × List Char) :=
  let three := cs.take 3
  let rest := cs.drop 3
  if three.length = 3 then
    match (monthAbbrevs.map (fun a => lowerChars a.data)).indexOf?
        (lowerChars three) with
    | some i => some (i + 1, rest)
    | none => none
  else none

/-- One token of a strptime format string. -/
inductive FTok where
  | d
  | m
  | y4
  | bmon
  | lit (c : Char)
  | ws

/-- Run a strptime format against the input: on success the day, month
and year fields (strptime defaults: day 1, month 1, year 1900) with the
whole input consumed. -/
def matchToks : List FTok → List Char → Nat → Nat → Nat → Option DateYMD
  | [], [], d, m, y => some ⟨y, m, d⟩
  | [], _ :: _, _, _, _ => none
  | .d :: ts, cs, _, m, y =>
    let (ds, rest) := takeDigits 2 cs
    if ds.length = 0 then none
    else
      let v := digitsVal ds
      if 1 ≤ v ∧ v ≤ 31 then matchToks ts rest v m y else none
  | .m :: ts, cs, d, _, y =>
    let (ds, rest) := takeDigits 2 cs
    if ds.length = 0 then none
    else
      let v := digitsVal ds
      if 1 ≤ v ∧ v ≤ 12 then matchToks ts rest d v y else none
  | .y4 :: ts, cs, d, m, _ =>
    let (ds, rest) := takeDigits 4 cs
    if ds.length = 4 then matchToks ts rest d m (digitsVal ds) else none
  | .bmon :: ts, cs, d, _, y =>
    match matchMonthAbbrev cs with
    | some (v, rest) => matchToks ts rest d v y
    | none => none
  | .lit c :: ts, c' :: cs, d, m, y =>
    if c = c' then matchToks ts cs d m y else none
  | .lit _ :: _, [], _, _, _ => none
  | .ws :: ts, c :: cs, d, m, y =>
    if pyIsSpace c then matchToks ts (cs.dropWhile pyIsSpace) d m y else none
  | .ws :: _, [], _, _, _ => none

/-- The ordered format list of `parse_date_string`. -/
def dateFormats : List (List FTok) :=
  [[.d, .lit '-', .bmon, .lit '-', .y4],
   [.d, .lit '/', .m, .lit '/', .y4],
   [.y4, .lit '-', .m, .lit '-', .d],
   [.m, .lit '/', .d, .lit '/', .y4],
   [.d, .ws, .bmon, .ws, .y4],
   [.bmon, .ws, .d, .lit ',', .ws, .y4],
   [.y4, .lit '.', .m, .lit '.', .d],
   [.d, .lit '.', .m, .lit '.', .y4]]

/-- Try the formats in order; the first one that both matches and yields
a valid calendar date wins (an invalid date raises inside the `try` and
falls through to the next format, like the Python loop). -/
def tryFormats : List (List FTok) → List Char → Option DateYMD
  | [], _ => none
  | f :: fs, cs =>
    match matchToks f cs 1 1 1900 with
    | some x => if validDate x then some x else tryFormats fs cs
    | none => tryFormats fs cs

/-- `datetime.strptime(date_str.strip(), fmt)` over the source's format
list: the parsed calendar date of a date string, if any format applies. -/
def parse_date_parts (s : String) : Option DateYMD :=
  tryFormats dateFormats (pythonStrip s.data)

/-- `dt.strftime("%d-%b-%Y")`: two-digit day, abbreviated month, year. -/
def fmtDMY (x : DateYMD) : String :=
  (if x.d < 10 then "0" ++ toString x.d else toString x.d) ++ "-" ++
    monthAbbrevs.getD (x.m - 1) "" ++ "-" ++ toString x.y

/-- `parse_date_string` from gpt4-note-translater.py: first matching
format, reformatted to `DD-MMM-YYYY`; `None` when nothing matches. -/
def parse_date_string (s : String) : Option String :=
  (parse_date_parts s).map fmtDMY

/-! ## PageRecord and the aggregator (`combine_responses`). -/

/-- One image's transcription attempt, as appended to
`individual_responses`: the raw model content, the `transcription`
field (`inl`: the parsed JSON object on valid JSON; `inr`: the cleaned
raw text when `json.loads` failed), the validity flag, and the source
filename. -/
structure PageRecord where
  response : String
  transcription : Sum Json String
  is_valid_json : Bool
  filename : String

/-- Python `x['transcription']` on a PageRecord's `transcription`
value: `TypeError` when it is a raw string or any non-dict JSON value,
`KeyError` when the dict has no such key. -/
def subscriptTranscription (t : Sum Json String) : Except PyErr Json :=
  match t with
  | .inr _ => .error .typeError
  | .inl (.obj kvs) =>
    match Json.lookup kvs "transcription" with
    | some v => .ok v
    | none => .error .keyError
  | .inl _ => .error .typeError

/-- The collection loop at the top of `combine_responses`: for each
record, in order, append `transcription['transcription']`,
`transcription.get('tags', [])` and `transcription.get('date', None)`;
the first raised exception aborts the whole call. -/
def collectRows : List PageRecord → Except PyErr (List Json × List Json × List Json)
  | [] => .ok ([], [], [])
  | r :: rest =>
    match r.transcription with
    | .inr _ => .error .typeError
    | .inl (.obj kvs) =>
      match Json.lookup kvs "transcription" with
      | none => .error .keyError
      | some t =>
        let tags := Json.getD kvs "tags" (.arr [])
        let date := Json.getD kvs "date" .null
        match collectRows rest with
        | .error e => .error e
        | .ok (ts, tgs, ds) => .ok (t :: ts, tags :: tgs, date :: ds)
    | .inl _ => .error .typeError

/-- `"\n\n".join(values)`: every element must be a string
(`TypeError` otherwise). -/
def strValues : List Json → Except PyErr (List String)
  | [] => .ok []
  | .str s :: rest =>
    match strValues rest with
    | .error e => .error e
    | .ok ss => .ok (s :: ss)
  | _ :: _ => .error .typeError

/-- Python iteration over a JSON value (`chain.from_iterable`): lists
yield elements, strings yield their characters, dicts their keys;
anything else raises `TypeError`. -/
def pyIterElems : Json → Except PyErr (List Json)
  | .arr xs => .ok xs
  | .str s => .ok (s.data.map (fun c => .str (String.mk [c])))
  | .obj kvs => .ok (kvs.map (fun kv => .str kv.1))
  | _ => .error .typeError

/-- Flatten the per-page tag values (`chain.from_iterable(all_tags)`). -/
def flatTags : List Json → Except PyErr (List Json)
  | [] => .ok []
  | t :: ts =>
    match pyIterElems t with
    | .error e => .error e
    | .ok elems =>
      match flatTags ts with
      | .error e => .error e
      | .ok rest => .ok (elems ++ rest)

/-- `list(set(xs))`: raises `TypeError` on unhashable elements (lists,
dicts), otherwise de-duplicates.  Python's set iteration order is
unspecified; this model fixes first-occurrence order, and no theorem
depends on the order. -/
def pySetList : List Json → Except PyErr (List Json)
  | [] => .ok []
  | .arr _ :: _ => .error .typeError
  | .obj _ :: _ => .error .typeError
  | x :: rest =>
    match pySetList rest with
    | .error e => .error e
    | .ok ys => .ok (if rest.any (Json.scalarBeq x) then ys else x :: ys)

/-- The per-page date coercion inside `combine_responses`:
`parse_date_string(date_str) if date_str else None`, with the parsed
sort key kept alongside the coerced string (the code re-parses the
coerced string with `%d-%b-%Y`, which round-trips).  A truthy
non-string raises `AttributeError` inside `parse_date_string`'s `try`,
which swallows it and yields `None`. -/
def coerceDate : Json → Option (Nat × String)
  | .str s =>
    if s ≠ "" then (parse_date_parts s).map (fun p => (dateKey p, fmtDMY p))
    else none
  | _ => none

/-- One step of the stable-minimum fold. -/
def stableMinStep (acc : Option (Nat × String)) (p : Nat × String) :
    Option (Nat × String) :=
  match acc with
  | none => some p
  | some q => if p.1 < q.1 then some p else some q

/-- The stable minimum of `(key, value)` pairs: Python's stable
`list.sort(key=...)` followed by taking the first element. -/
def stableMin (l : List (Nat × String)) : Option (Nat × String) :=
  l.foldl stableMinStep none

/-- `combine_responses` from gpt4-note-translater.py: merge the page
transcriptions with blank-line separators, union the tags, resolve the
earliest normalized date (falling back to the first raw date value when
none parses), and return the combined metadata dict. -/
def combine_responses (rs : List PageRecord) : Except PyErr Json :=
  if rs.isEmpty then .ok (.obj [])
  else
    match collectRows rs with
    | .error e => .error e
    | .ok (ts, tgs, ds) =>
      if ts.isEmpty then .ok (.obj [])
      else
        match strValues ts with
        | .error e => .error e
        | .ok strs =>
          let combined := String.intercalate "\n\n" strs
          match flatTags tgs with
          | .error e => .error e
          | .ok flat =>
            match pySetList flat with
            | .error e => .error e
            | .ok uniq =>
              let parsed := ds.filterMap coerceDate
              let earliest : Json :=
                match stableMin parsed with
                | some q => .str q.2
                | none => ds.headD .null
              .ok (.obj [("transcription", .str combined),
                         ("date", earliest),
                         ("tags", .arr uniq)])

/-- A well-formed page's parsed fields, used to build `PageRecord`s with
valid parsed JSON objects of the shape the model is instructed to
return. -/
structure PageInput where
  filename : String
  title : String
  date : String
  text : String
  tags : List String

/-- The `PageRecord` of a page whose model response parsed to the
instructed JSON shape. -/
def mkPage (q : PageInput) : PageRecord :=
  { response := ""
    transcription := .inl (.obj
      [("title", .str q.title), ("date", .str q.date),
       ("transcription", .str q.text),
       ("tags", .arr (q.tags.map .str))])
    is_valid_json := true
    filename := q.filename }

/-- Modelled from the spec: `unicodedata.normalize('NFKD', ·)`
restricted to the character repertoire used in this development.  Every
character appearing here other than the horizontal ellipsis and the
no-break space has no compatibility decomposition (ASCII, the smart
quotes, em/en dashes, guillemets, low quotation marks and the Unicode
line/paragraph separators are all NFKD-fixed points); U+2026 decomposes
to three periods and U+00A0 to a plain space. -/
def nfkdChar (c : Char) : List Char :=
  if c = '…' then ['.', '.', '.']
  else if c = ' ' then [' ']
  else [c]

/-- The single-character entries of the `replacements` dict of
`clean_json_text`.  The source's `# Smart quotes` line (line 100) is
written with plain ASCII quotes, so Python parses it as the no-op entry
`'"' -> '"'` plus an accidental triple-quoted-string entry whose key is
the seven characters `: "'", ` (see `weirdKey`); the dict therefore
contains NO smart-quote keys.  The remaining twelve entries have
pairwise distinct single non-ASCII search characters whose replacement
texts contain no later entry's search character, so the sequential
`str.replace` calls over them equal this single character-wise pass. -/
def replChar (c : Char) : List Char :=
  if c = '—' then ['-']
  else if c = '–' then ['-']
  else if c = '…' then ['.', '.', '.']
  else if c = '‚' then [',']
  else if c = '„' then ['"']
  else if c = '‹' then ['<']
  else if c = '›' then ['>']
  else if c = '«' then ['"']
  else if c = '»' then ['"']
  else if c = ' ' then [' ']
  else if c = ' ' then ['\n']
  else if c = ' ' then ['\n', '\n']
  else [c]

/-- The accidental replacement key produced by line 100 of
gpt4-note-translater.py: the characters of the triple-quoted string
`: "'", ` (colon, space, double quote, apostrophe, double quote,
comma, space), replaced by a single apostrophe. -/
def weirdKey : List Char := [':', ' ', '"', '\'', '"', ',', ' ']

/-- The `text.replace` call for the accidental entry: leftmost
non-overlapping occurrences of `weirdKey` become one apostrophe.  The
first argument is structural-recursion fuel, sufficient whenever it is
at least the input length. -/
def replaceWeird : Nat → List Char → List Char
  | 0, cs => cs
  | _ + 1, [] => []
  | f + 1, c :: t =>
    if weirdKey.isPrefixOf (c :: t) then
      '\'' :: replaceWeird f ((c :: t).drop 7)
    else c :: replaceWeird f t

/-- The control characters removed by the final
`re.sub(r'[\x00-\x08\x0b\x0c\x0e-\x1f\x7f-\x9f]', '', ·)`. -/
def isStrippedCtrl (c : Char) : Bool :=
  let n := c.toNat
  n ≤ 0x08 || n == 0x0b || n == 0x0c || (0x0e ≤ n && n ≤ 0x1f) ||
    (0x7f ≤ n && n ≤ 0x9f)

/-- The markdown-fence stripping prelude of `clean_json_text`:
`strip()`, drop a leading ```` ```json ```` (else a bare ```` ``` ````),
drop a trailing ```` ``` ````, `strip()` again. -/
def stripFence (cs : List Char) : List Char :=
  let cs0 := pythonStrip cs
  let cs1 :=
    if "```json".data.isPrefixOf cs0 then cs0.drop 7
    else if "```".data.isPrefixOf cs0 then cs0.drop 3
    else cs0
  let cs2 :=
    if "```".data.isSuffixOf cs1 then cs1.take (cs1.length - 3) else cs1
  pythonStrip cs2

/-- `clean_json_text` from gpt4-note-translater.py: fence stripping,
NFKD normalization, the sequential `replacements` passes (the `'"' ->
'"'` no-op, then the accidental `weirdKey` substring replacement, then
the twelve single-character entries), and control-character removal,
in that order. -/
def clean_json_text (s : String) : String :=
  let cs := ((stripFence s.data).bind nfkdChar)
  String.mk (((replaceWeird cs.length cs).bind replChar).filter
    (fun c => !isStrippedCtrl c))

/-! ## A JSON parser (`json.loads`).

Modelled from the spec: Python's standard-library `json.loads`,
restricted to integer numbers (no fractions or exponents) and to
`\uXXXX` escapes outside the surrogate range.  The structural fuel is
sufficient for every input (`2 * length + 4`). -/

/-- JSON whitespace. -/
def jsonWs (c : Char) : Bool :=
  c = ' ' || c = '\t' || c = '\n' || c = '\r'

/-- Skip JSON whitespace. -/
def skipWs (cs : List Char) : List Char := cs.dropWhile jsonWs

/-- Hexadecimal digit test. -/
def isHexDigitCh (c : Char) : Bool :=
  c.isDigit || ('a' ≤ c && c ≤ 'f') || ('A' ≤ c && c ≤ 'F')

/-- Value of one hexadecimal digit. -/
def hexDigitVal (c : Char) : Nat :=
  if c.isDigit then c.toNat - 48
  else if 'a' ≤ c && c ≤ 'f' then c.toNat - 87
  else c.toNat - 55

/-- Value of a hexadecimal digit run. -/
def hexVal (ds : List Char) : Nat :=
  ds.foldl (fun a c => a * 16 + hexDigitVal c) 0

/-- Single-character JSON string escapes. -/
def escChar (e : Char) : Option Char :=
  if e = '"' then some '"'
  else if e = '\\' then some '\\'
  else if e = '/' then some '/'
  else if e = 'b' then some '\x08'
  else if e = 'f' then some '\x0c'
  else if e = 'n' then some '\n'
  else if e = 'r' then some '\r'
  else if e = 't' then some '\t'
  else none

/-- Parse the tail of a JSON string literal (after the opening quote):
the decoded characters and the input after the closing quote. -/
def parseStrChars : Nat → List Char → Option (List Char × List Char)
  | 0, _ => none
  | _ + 1, [] => none
  | f + 1, c :: rest =>
    if c = '"' then some ([], rest)
    else if c = '\\' then
      match rest with
      | [] => none
      | e :: rest' =>
        if e = 'u' then
          let hex := rest'.take 4
          if hex.length = 4 && hex.all isHexDigitCh then
            match parseStrChars f (rest'.drop 4) with
            | some (cs, r) => some (Char.ofNat (hexVal hex) :: cs, r)
            | none => none
          else none
        else
          match escChar e with
          | some d =>
            match parseStrChars f rest' with
            | some (cs, r) => some (d :: cs, r)
            | none => none
          | none => none
    else if c.toNat < 0x20 then none
    else
      match parseStrChars f rest with
      | some (cs, r) => some (c :: cs, r)
      | none => none

/-- What the fueled parser is currently parsing: one value, the
remaining elements of an array (after `[` and at least one value), or
the remaining members of an object. -/
inductive PTask where
  | val
  | elems
  | members

/-- Parse a decimal integer literal (JSON numbers restricted to
integers): sign, digits with no redundant leading zero, not followed by
a fraction or exponent. -/
def parseIntLit (cs : List Char) : Option (Int × List Char) :=
  let (neg, cs1) :=
    match cs with
    | '-' :: t => (true, t)
    | _ => (false, cs)
  let ds := cs1.takeWhile Char.isDigit
  let rest := cs1.dropWhile Char.isDigit
  if ds.isEmpty then none
  else if ds.length > 1 && ds.headD '0' = '0' then none
  else
    match rest with
    | '.' :: _ => none
    | 'e' :: _ => none
    | 'E' :: _ => none
    | _ =>
      let v : Int := Int.ofNat (digitsVal ds)
      some (if neg then -v else v, rest)

/-- The fueled JSON parser: one recursive function over a task tag, so
that the recursion is structural in the fuel and reduces in the
kernel.  `.elems` and `.members` return `.arr` / `.obj` values. -/
def parseF : Nat → PTask → List Char → Option (Json × List Char)
  | 0, _, _ => none
  | fuel + 1, .val, cs =>
    match skipWs cs with
    | [] => none
    | c :: rest =>
      if c = 'n' then
        if "ull".data.isPrefixOf rest then some (.null, rest.drop 3) else none
      else if c = 't' then
        if "rue".data.isPrefixOf rest then some (.bool true, rest.drop 3)
        else none
      else if c = 'f' then
        if "alse".data.isPrefixOf rest then some (.bool false, rest.drop 4)
        else none
      else if c = '"' then
        match parseStrChars (rest.length + 1) rest with
        | some (cs', r) => some (.str (String.mk cs'), r)
        | none => none
      else if c = '[' then
        match skipWs rest with
        | ']' :: r => some (.arr [], r)
        | _ => parseF fuel .elems rest
      else if c = '{' then
        match skipWs rest with
        | '}' :: r => some (.obj [], r)
        | _ => parseF fuel .members rest
      else
        match parseIntLit (c :: rest) with
        | some (v, r) => some (.num v, r)
        | none => none
  | fuel + 1, .elems, cs =>
    match parseF fuel .val cs with
    | none => none
    | some (v, r) =>
      match skipWs r with
      | ',' :: r2 =>
        match parseF fuel .elems r2 with
        | some (.arr xs, r3) => some (.arr (v :: xs), r3)
        | _ => none
      | ']' :: r2 => some (.arr [v], r2)
      | _ => none
  | fuel + 1, .members, cs =>
    match skipWs cs with
    | '"' :: rest =>
      match parseStrChars (rest.length + 1) rest with
      | none => none
      | some (k, r) =>
        match skipWs r with
        | ':' :: r2 =>
          match parseF fuel .val r2 with
          | none => none
          | some (v, r3) =>
            match skipWs r3 with
            | ',' :: r4 =>
              match parseF fuel .members r4 with
              | some (.obj kvs, r5) =>
                some (.obj ((String.mk k, v) :: kvs), r5)
              | _ => none
            | '}' :: r4 => some (.obj [(String.mk k, v)], r4)
            | _ => none
        | _ => none
    | _ => none

/-- `json.loads`: parse one JSON value with nothing but whitespace
around it. -/
def jsonParse (s : String) : Option Json :=
  match parseF (2 * s.data.length + 4) .val s.data with
  | some (v, rest) => if skipWs rest = [] then some v else none
  | none => none

/-- A markdown-fenced model reply: the JSON text wrapped in a
language-tagged code fence. -/
def fenceString (s : String) : String := "```json\n" ++ s ++ "\n```"

/-- Printable ASCII or tab/newline/carriage-return: the characters the
sanitizer passes through unchanged. -/
def safeAsciiChar (c : Char) : Bool :=
  (0x20 ≤ c.toNat && c.toNat ≤ 0x7e) || c = '\t' || c = '\n' || c = '\r'

/-- A typographic (smart) quotation mark. -/
def smartQuoteChar (c : Char) : Bool :=
  c = '“' || c = '”' || c = '‘' || c = '’'

theorem safe_toNat {a : Char} (h : safeAsciiChar a = true) :
    a.toNat ≤ 0x7e := by
  simp only [safeAsciiChar, Bool.or_eq_true, Bool.and_eq_true,
    decide_eq_true_eq] at h
  rcases h with ((⟨_, h2⟩ | h) | h) | h
  · exact h2
  · subst h; decide
  · subst h; decide
  · subst h; decide

theorem nfkdChar_ascii {a : Char} (h : a.toNat ≤ 0x7e) :
    nfkdChar a = [a] := by
  have ne : ∀ c : Char, 0x7e < c.toNat → a ≠ c := by
    intro c hc heq
    subst heq
    omega
  unfold nfkdChar
  rw [if_neg (ne _ (by decide)), if_neg (ne _ (by decide))]

theorem notStrippedCtrl_of_safe {a : Char} (h : safeAsciiChar a = true) :
    (!isStrippedCtrl a) = true := by
  simp only [safeAsciiChar, Bool.or_eq_true, Bool.and_eq_true,
    decide_eq_true_eq] at h
  simp only [isStrippedCtrl, Bool.not_eq_true', Bool.or_eq_false_iff,
    decide_eq_false_iff_not, beq_eq_false_iff_ne, ne_eq,
    Bool.and_eq_false_iff]
  rcases h with ((⟨h1, h2⟩ | h) | h) | h
  · refine ⟨⟨⟨⟨by omega, by omega⟩, by omega⟩, ?_⟩, ?_⟩
    · by_cases hc : a.toNat < 0x0e
      · left; omega
      · right; omega
    · by_cases hc : a.toNat < 0x7f
      · left; omega
      · right; omega
  · subst h
    decide
  · subst h
    decide
  · subst h
    decide

theorem replChar_ascii {a : Char} (h : a.toNat ≤ 0x7e) :
    replChar a = [a] := by
  have ne : ∀ c : Char, 0x7e < c.toNat → a ≠ c := by
    intro c hc heq
    subst heq
    omega
  unfold replChar
  rw [if_neg (ne _ (by decide)), if_neg (ne _ (by decide)),
    if_neg (ne _ (by decide)), if_neg (ne _ (by decide)),
    if_neg (ne _ (by decide)), if_neg (ne _ (by decide)),
    if_neg (ne _ (by decide)), if_neg (ne _ (by decide)),
    if_neg (ne _ (by decide)), if_neg (ne _ (by decide)),
    if_neg (ne _ (by decide)), if_neg (ne _ (by decide))]

theorem nfkdChar_id {c : Char}
    (h : safeAsciiChar c = true ∨ smartQuoteChar c = true) :
    nfkdChar c = [c] := by
  rcases h with h | h
  · exact nfkdChar_ascii (safe_toNat h)
  · simp only [smartQuoteChar, Bool.or_eq_true, decide_eq_true_eq] at h
    rcases h with ((h | h) | h) | h <;> (subst h; decide)

theorem replChar_id {c : Char}
    (h : safeAsciiChar c = true ∨ smartQuoteChar c = true) :
    replChar c = [c] := by
  rcases h with h | h
  · exact replChar_ascii (safe_toNat h)
  · simp only [smartQuoteChar, Bool.or_eq_true, decide_eq_true_eq] at h
    rcases h with ((h | h) | h) | h <;> (subst h; decide)

theorem notStrippedCtrl_id {c : Char}
    (h : safeAsciiChar c = true ∨ smartQuoteChar c = true) :
    (!isStrippedCtrl c) = true := by
  rcases h with h | h
  · exact notStrippedCtrl_of_safe h
  · simp only [smartQuoteChar, Bool.or_eq_true, decide_eq_true_eq] at h
    rcases h with ((h | h) | h) | h <;> (subst h; decide)

theorem bind_nfkd_id {cs : List Char}
    (h : ∀ c ∈ cs, safeAsciiChar c = true ∨ smartQuoteChar c = true) :
    cs.bind nfkdChar = cs := by
  induction cs with
  | nil => rfl
  | cons c t ih =>
    simp only [List.cons_bind, nfkdChar_id (h c (by simp)),
      ih (fun x hx => h x (List.mem_cons_of_mem c hx)), List.singleton_append]

theorem bind_repl_id {cs : List Char}
    (h : ∀ c ∈ cs, safeAsciiChar c = true ∨ smartQuoteChar c = true) :
    cs.bind replChar = cs := by
  induction cs with
  | nil => rfl
  | cons c t ih =>
    simp only [List.cons_bind, replChar_id (h c (by simp)),
      ih (fun x hx => h x (List.mem_cons_of_mem c hx)), List.singleton_append]

theorem filter_ctrl_id {cs : List Char}
    (h : ∀ c ∈ cs, safeAsciiChar c = true ∨ smartQuoteChar c = true) :
    cs.filter (fun c => !isStrippedCtrl c) = cs := by
  rw [List.filter_eq_self]
  intro a ha
  exact notStrippedCtrl_id (h a ha)

theorem replaceWeird_id :
    ∀ (fuel : Nat) {cs : List Char}, (∀ c ∈ cs, c ≠ '"') →
      replaceWeird fuel cs = cs := by
  intro fuel
  induction fuel with
  | zero => intro cs _; rfl
  | succ f ih =>
    intro cs h
    cases cs with
    | nil => rfl
    | cons c t =>
      have hpre : weirdKey.isPrefixOf (c :: t) = false := by
        by_contra hcon
        rw [Bool.not_eq_false] at hcon
        obtain ⟨rest, hrest⟩ := List.isPrefixOf_iff_prefix.mp hcon
        have hq : '"' ∈ c :: t := by
          rw [← hrest]
          exact List.mem_append_left _ (by decide)
        exact absurd rfl (h '"' hq)
      show (if weirdKey.isPrefixOf (c :: t) = true then _ else _) = _
      rw [hpre]
      simp only [Bool.false_eq_true, if_false]
      rw [ih (fun x hx => h x (List.mem_cons_of_mem c hx))]

theorem dropWhile_eq_self_of_head {p : Char → Bool} {l : List Char}
    (h : ∀ c ∈ l.head?, p c = false) : l.dropWhile p = l := by
  cases l with
  | nil => rfl
  | cons a t =>
    exact List.dropWhile_cons_of_neg (by simp [h a (by simp)])

theorem getLast?_append_singleton (l : List Char) (c : Char) :
    (l ++ [c]).getLast? = some c := by
  simp [List.getLast?_append]

theorem pythonStrip_no_strip {l : List Char}
    (h1 : ∀ c ∈ l.head?, pyIsSpace c = false)
    (h2 : ∀ c ∈ l.getLast?, pyIsSpace c = false) : pythonStrip l = l := by
  unfold pythonStrip
  rw [dropWhile_eq_self_of_head h1]
  rw [dropWhile_eq_self_of_head ?_, List.reverse_reverse]
  intro c hc
  exact h2 c (by rwa [List.head?_reverse] at hc)

theorem pythonStrip_newline_pad {s : List Char} (hne : s ≠ [])
    (hhead : ∀ c ∈ s.head?, pyIsSpace c = false)
    (hlast : ∀ c ∈ s.getLast?, pyIsSpace c = false) :
    pythonStrip ('\n' :: (s ++ ['\n'])) = s := by
  obtain ⟨c0, t, rfl⟩ : ∃ c0 t, s = c0 :: t := by
    cases s with
    | nil => exact absurd rfl hne
    | cons a t => exact ⟨a, t, rfl⟩
  obtain ⟨L, b, hLb⟩ : ∃ (L : List Char) (b : Char), c0 :: t = L ++ [b] := by
    rcases List.eq_nil_or_concat (c0 :: t) with h | ⟨L, b, h⟩
    · exact absurd h (by simp)
    · exact ⟨L, b, by rw [h, List.concat_eq_append]⟩
  unfold pythonStrip
  rw [List.dropWhile_cons_of_pos (by decide)]
  rw [show (c0 :: t) ++ ['\n'] = c0 :: (t ++ ['\n']) by simp]
  rw [List.dropWhile_cons_of_neg (by simp [hhead c0 (by simp)])]
  rw [show c0 :: (t ++ ['\n']) = (c0 :: t) ++ ['\n'] by simp, hLb]
  rw [show ((L ++ [b]) ++ ['\n']).reverse = '\n' :: (b :: L.reverse) by
    simp [List.reverse_append]]
  rw [List.dropWhile_cons_of_pos (by decide)]
  have hb : pyIsSpace b = false := by
    apply hlast
    rw [hLb, getLast?_append_singleton]
    simp
  rw [List.dropWhile_cons_of_neg (by simp [hb])]
  rw [show (b :: L.reverse).reverse = L ++ [b] by simp]

theorem stripFence_fence {s : List Char} (hne : s ≠ [])
    (hhead : ∀ c ∈ s.head?, pyIsSpace c = false)
    (hlast : ∀ c ∈ s.getLast?, pyIsSpace c = false) :
    stripFence ('`' :: '`' :: '`' :: 'j' :: 's' :: 'o' :: 'n' :: '\n' ::
      (s ++ ['\n', '`', '`', '`'])) = s := by
  have hstrip0 : pythonStrip ('`' :: '`' :: '`' :: 'j' :: 's' :: 'o' :: 'n' :: '\n' ::
      (s ++ ['\n', '`', '`', '`'])) = '`' :: '`' :: '`' :: 'j' :: 's' :: 'o' :: 'n' :: '\n' ::
      (s ++ ['\n', '`', '`', '`']) := by
    apply pythonStrip_no_strip
    · intro c hc
      simp only [List.head?_cons, Option.mem_def, Option.some.injEq] at hc
      subst hc
      decide
    · intro c hc
      rw [show ('`' :: '`' :: '`' :: 'j' :: 's' :: 'o' :: 'n' :: '\n' ::
          (s ++ ['\n', '`', '`', '`'])) = ('`' :: '`' :: '`' :: 'j' :: 's' :: 'o' :: 'n' :: '\n' ::
          (s ++ ['\n', '`', '`'])) ++ ['`'] by simp,
        getLast?_append_singleton] at hc
      simp only [Option.mem_def, Option.some.injEq] at hc
      subst hc
      decide
  have hpre : ("```json".data.isPrefixOf ('`' :: '`' :: '`' :: 'j' :: 's' :: 'o' :: 'n' :: '\n' ::
      (s ++ ['\n', '`', '`', '`']))) = true := rfl
  have hsuf : ("```".data.isSuffixOf ('\n' :: (s ++ ['\n', '`', '`', '`']))) = true := by
    show ("```".data.reverse.isPrefixOf ('\n' :: (s ++ ['\n', '`', '`', '`'])).reverse) = true
    rw [show ('\n' :: (s ++ ['\n', '`', '`', '`'])) =
      ('\n' :: s) ++ ['\n', '`', '`', '`'] by simp, List.reverse_append]
    rfl
  simp only [stripFence]
  rw [hstrip0, if_pos hpre]
  rw [show List.drop 7 ('`' :: '`' :: '`' :: 'j' :: 's' :: 'o' :: 'n' :: '\n' ::
      (s ++ ['\n', '`', '`', '`'])) = '\n' :: (s ++ ['\n', '`', '`', '`']) from rfl]
  rw [if_pos hsuf]
  rw [show ('\n' :: (s ++ ['\n', '`', '`', '`'])) =
    ('\n' :: (s ++ ['\n'])) ++ ['`', '`', '`'] by simp]
  rw [show (('\n' :: (s ++ ['\n'])) ++ ['`', '`', '`']).length - 3 =
    ('\n' :: (s ++ ['\n'])).length by simp]
  rw [List.take_left' rfl]
  exact pythonStrip_newline_pad hne hhead hlast



/-- The sanitizer never repairs smart quotes: on fenced text over
printable ASCII and smart quotes, with no leading/trailing whitespace
and no ASCII double quote (so the accidental `weirdKey` rule cannot
fire), `clean_json_text` strips the fence and returns the text
verbatim, smart quotes included. -/
theorem clean_json_text_leaves_smart_quotes (s : String)
    (hne : s.data ≠ [])
    (hhead : ∀ c ∈ s.data.head?, pyIsSpace c = false)
    (hlast : ∀ c ∈ s.data.getLast?, pyIsSpace c = false)
    (hchars : ∀ c ∈ s.data, safeAsciiChar c = true ∨ smartQuoteChar c = true)
    (hnoq : ∀ c ∈ s.data, c ≠ '"') :
    clean_json_text (fenceString s) = s := by
  have hdata : (fenceString s).data =
      '`' :: '`' :: '`' :: 'j' :: 's' :: 'o' :: 'n' :: '\n' ::
        (s.data ++ ['\n', '`', '`', '`']) := by
    show ("```json\n" ++ s ++ "\n```").data = _
    rw [String.data_append, String.data_append]
    rfl
  simp only [clean_json_text]
  rw [hdata, stripFence_fence hne hhead hlast]
  rw [bind_nfkd_id hchars, replaceWeird_id _ hnoq]
  rw [bind_repl_id hchars, filter_ctrl_id hchars]

theorem clean_json_text_leaves_smart_quotes_witness :
    clean_json_text (fenceString "\x7b“a”: “hi”\x7d") = "\x7b“a”: “hi”\x7d" :=
  clean_json_text_leaves_smart_quotes "\x7b“a”: “hi”\x7d"
    (by decide) (by decide) (by decide) (by decide) (by decide)

/-- C9 (code bug).  The sanitizer does not convert smart quotes: the
`# Smart quotes` entries of the `replacements` dict are written with
plain ASCII quotes (a no-op entry plus the accidental `weirdKey` rule),
and NFKD leaves the smart-quote code points unchanged, so a fenced
smart-quoted JSON reply passes through `clean_json_text` with its smart
quotes intact and `json.loads` then fails — sanitize-then-parse cannot
yield the logical object of the straight-quoted original, which does
parse. -/
theorem clean_json_text_smartquote_bug :
    clean_json_text (fenceString "\x7b“a”: “hi”\x7d") = "\x7b“a”: “hi”\x7d" ∧
    jsonParse (clean_json_text (fenceString "\x7b“a”: “hi”\x7d")) = none ∧
    (jsonParse "\x7b\"a\": \"hi\"\x7d").isSome = true :=
  ⟨rfl, rfl, rfl⟩

/-! ## The per-folder processing loop of gpt4-note-translater.py.

The external model calls are supplied as explicit outcomes: a call
either raises (network error — any exception from
`client.chat.completions.create`) or returns the reply's message
content string. -/

/-- The model identifier used by the script. -/
def modelName : String := "gpt-4o"

/-- Outcome of one `client.chat.completions.create` call. -/
inductive CallOutcome where
  | raises
  | content (s : String)

/-- The PageRecord appended for an image whose model call returned
`content`: clean the text, attempt `json.loads`, and keep either the
parsed object (valid) or the cleaned text (invalid). -/
def mkPageRecord (fn content : String) : PageRecord :=
  match jsonParse (clean_json_text content) with
  | some j => ⟨content, .inl j, true, fn⟩
  | none => ⟨content, .inr (clean_json_text content), false, fn⟩

/-- The per-image loop: images whose call raises are skipped by the
`except ... continue` (no record); every returned reply yields exactly
one record, valid or not. -/
def processPages (pairs : List (String × CallOutcome)) : List PageRecord :=
  pairs.filterMap fun p =>
    match p.2 with
    | .raises => none
    | .content c => some (mkPageRecord p.1 c)

/-- The `summary` object stored for a multi-page group: the parsed
summary reply, or — on a parse failure — the raw (uncleaned) reply
text with the validity flag down. -/
structure SummaryRec where
  is_valid_json : Bool
  contents : Sum Json String

/-- Build the summary object from the summary reply's content. -/
def mkSummary (content : String) : SummaryRec :=
  match jsonParse (clean_json_text content) with
  | some j => ⟨true, .inl j⟩
  | none => ⟨false, .inr content⟩

/-- The per-group record stored under the group's fingerprint:
`image_paths` and `summary` exist only for multi-page groups (the
`len(individual_responses) > 1` branch). -/
structure DocumentRecord where
  image_paths : Option (List String)
  summary : Option SummaryRec
  individual_responses : List PageRecord

/-- The cache-miss branch of the folder loop: process every image,
then — only when more than one record resulted — run
`combine_responses` (which can raise) and one summary model call
(which can also raise).  Returns the record and the number of model
calls made; per-image calls count even when they raise. -/
def processGroupMiss (folderPath : String)
    (pairs : List (String × CallOutcome)) (summaryOutcome : CallOutcome) :
    Except PyErr (DocumentRecord × Nat) :=
  let records := processPages pairs
  if records.length > 1 then
    match combine_responses records with
    | .error e => .error e
    | .ok _ =>
      match summaryOutcome with
      | .raises => .error .apiError
      | .content c =>
        .ok (⟨some (pairs.map (fun p => folderPath ++ "/" ++ p.1)),
              some (mkSummary c), records⟩,
             pairs.length + 1)
  else
    .ok (⟨none, none, records⟩, pairs.length)

/-- Association lookup in the persisted response cache
(`uuid in responses` / `responses[uuid]`). -/
def lookupRec : List (String × DocumentRecord) → String → Option DocumentRecord
  | [], _ => none
  | (k, v) :: rest, key => if k = key then some v else lookupRec rest key

/-- What one folder iteration produces: the group's record
(`response_dict`'s payload), the file content written by `json.dump`
(`none` when nothing is written), and the number of model calls. -/
structure FolderResult where
  record : DocumentRecord
  written : Option (List (String × DocumentRecord))
  modelCalls : Nat

/-- One iteration of the folder loop: skip empty folders, fingerprint
the image list, serve a cache hit from the loaded cache with no calls
and no write; on a miss run the group pipeline and rewrite the
responses file with `json.dump(response_dict, ...)` — the fresh
per-folder dict holding only this group's entry. -/
def processFolder (responses : List (String × DocumentRecord))
    (folderPath : String) (pairs : List (String × CallOutcome))
    (summaryOutcome : CallOutcome) : Except PyErr (Option FolderResult) :=
  if pairs.isEmpty then .ok none
  else
    match generate_uuid (pairs.map Prod.fst) modelName with
    | .error e => .error e
    | .ok uuid =>
      match lookupRec responses uuid with
      | some cached => .ok (some ⟨cached, none, 0⟩)
      | none =>
        match processGroupMiss folderPath pairs summaryOutcome with
        | .error e => .error e
        | .ok (doc, calls) => .ok (some ⟨doc, some [(uuid, doc)], calls⟩)

/-- The whole run over a folder list: the loaded in-memory cache
`responses` is never updated, while the persisted file is replaced by
whatever the last miss wrote.  Returns the final file content, the
per-folder records, and the total number of model calls. -/
def runFolders (responses : List (String × DocumentRecord))
    (fileState : List (String × DocumentRecord))
    (folders : List (String × List (String × CallOutcome) × CallOutcome)) :
    Except PyErr (List (String × DocumentRecord) × List DocumentRecord × Nat) :=
  match folders with
  | [] => .ok (fileState, [], 0)
  | (fp, pairs, sOc) :: rest =>
    match processFolder responses fp pairs sOc with
    | .error e => .error e
    | .ok none =>
      runFolders responses fileState rest
    | .ok (some r) =>
      match runFolders responses
          (match r.written with | some w => w | none => fileState) rest with
      | .error e => .error e
      | .ok (file, recs, calls) => .ok (file, r.record :: recs, r.modelCalls + calls)



/-- The title/date/tags resolution at the top of the export loop in
export_responses.py, together with the multi-note flag: a record with a
valid summary is a multi-note upload whose fields come from the summary
contents; otherwise a record whose first PageRecord parsed supplies the
fields from that page (`is_multi_page == false`); otherwise the fields
stay the initialized empty strings. -/
def exportMeta (rec : DocumentRecord) : Except PyErr (Bool × Json × Json × Json) :=
  let singleBranch : Except PyErr (Bool × Json × Json × Json) :=
    match rec.individual_responses with
    | [] => .error .indexError
    | r :: _ =>
      if r.is_valid_json then
        match r.transcription with
        | .inl (.obj kvs) =>
          .ok (false, Json.getD kvs "title" (.str ""),
            Json.getD kvs "date" (.str ""),
            Json.getD kvs "tags" (.arr []))
        | _ => .error .attributeError
      else .ok (false, .str "", .str "", .str "")
  match rec.summary with
  | some s =>
    if s.is_valid_json then
      match s.contents with
      | .inl (.obj kvs) =>
        .ok (true, Json.getD kvs "title" (.str "Untitled"),
          Json.getD kvs "date" (.str "Unknown Date"),
          Json.getD kvs "tags" (.arr []))
      | _ => .error .attributeError
    else singleBranch
  | none => singleBranch

/-- The transcription texts the export loop appends to the markdown
body: per page, the page date first for multi-note uploads, then the
page transcription (`.get` with empty-string defaults); a raw-string
transcription raises `AttributeError`. -/
def exportBodyParts (multi : Bool) : List PageRecord → Except PyErr (List Json)
  | [] => .ok []
  | r :: rest =>
    match r.transcription with
    | .inl (.obj kvs) =>
      match exportBodyParts multi rest with
      | .error e => .error e
      | .ok parts =>
        .ok ((if multi then [Json.getD kvs "date" (.str "")] else []) ++
          (Json.getD kvs "transcription" (.str "") :: parts))
    | _ => .error .attributeError

/-- C8.  Single-page promotion: a group whose processing produced
exactly one (valid) PageRecord takes the `else` branch — no second
summarization call (total calls = one per image), no `summary` object —
and the export stage classifies the record as single-note
(`is_multi_page == false`) with document title, date, tags and
transcription equal to that page's parsed fields. -/
theorem single_page_promotion (folderPath : String)
    (pairs : List (String × CallOutcome)) (sOc : CallOutcome)
    (r : PageRecord) (kvs : List (String × Json))
    (hrec : processPages pairs = [r])
    (hvalid : r.is_valid_json = true)
    (hobj : r.transcription = .inl (.obj kvs)) :
    processGroupMiss folderPath pairs sOc =
      .ok (⟨none, none, [r]⟩, pairs.length) ∧
    exportMeta ⟨none, none, [r]⟩ =
      .ok (false, Json.getD kvs "title" (.str ""),
        Json.getD kvs "date" (.str ""), Json.getD kvs "tags" (.arr [])) ∧
    exportBodyParts false [r] = .ok [Json.getD kvs "transcription" (.str "")] := by
  refine ⟨?_, ?_, ?_⟩
  · unfold processGroupMiss
    rw [hrec]
    rfl
  · unfold exportMeta
    simp only
    rw [if_pos hvalid, hobj]
  · unfold exportBodyParts
    rw [hobj]
    rfl



/-- A concrete valid model reply used by concrete-input theorems. -/
def cexPageContent : String :=
  "\x7b\"title\": \"T\", \"date\": \"1-Jan-2024\", \"transcription\": \"text\", \"tags\": [\"x\"]\x7d"

/-- C4 (code bug).  A three-page group whose middle page's model
response did not parse stores that page's `transcription` as a raw
string; `combine_responses` then evaluates
`response_data['transcription']['transcription']` on that string and
raises `TypeError` — uncaught at the call site — so the whole group
pipeline aborts instead of producing a DocumentRecord combining
pages 1 and 3. -/
theorem combine_responses_invalid_page_typeerror :
    combine_responses
      [mkPage ⟨"p1.jpg", "t1", "1-Jan-2024", "page one", []⟩,
       { response := "raw2", transcription := .inr "not json",
         is_valid_json := false, filename := "p2.jpg" },
       mkPage ⟨"p3.jpg", "t3", "2-Jan-2024", "page three", []⟩] =
      .error .typeError ∧
    processGroupMiss "n1"
      [("p1.jpg", CallOutcome.content cexPageContent),
       ("p2.jpg", CallOutcome.content "not json"),
       ("p3.jpg", CallOutcome.content cexPageContent)]
      (CallOutcome.content "s") = .error .typeError :=
  ⟨rfl, rfl⟩

theorem single_page_promotion_witness :
    processPages [("a.jpg", CallOutcome.content cexPageContent)] =
      [⟨cexPageContent, .inl (.obj
        [("title", .str "T"), ("date", .str "1-Jan-2024"),
         ("transcription", .str "text"), ("tags", .arr [.str "x"])]),
        true, "a.jpg"⟩] ∧
    processGroupMiss "n1" [("a.jpg", CallOutcome.content cexPageContent)]
        (CallOutcome.content "s") =
      .ok (⟨none, none, [⟨cexPageContent, .inl (.obj
        [("title", .str "T"), ("date", .str "1-Jan-2024"),
         ("transcription", .str "text"), ("tags", .arr [.str "x"])]),
        true, "a.jpg"⟩]⟩, 1) ∧
    exportMeta ⟨none, none, [⟨cexPageContent, .inl (.obj
        [("title", .str "T"), ("date", .str "1-Jan-2024"),
         ("transcription", .str "text"), ("tags", .arr [.str "x"])]),
        true, "a.jpg"⟩]⟩ =
      .ok (false, .str "T", .str "1-Jan-2024", .arr [.str "x"]) ∧
    exportBodyParts false [⟨cexPageContent, .inl (.obj
        [("title", .str "T"), ("date", .str "1-Jan-2024"),
         ("transcription", .str "text"), ("tags", .arr [.str "x"])]),
        true, "a.jpg"⟩] = .ok [.str "text"] := by
  have h := single_page_promotion "n1" [("a.jpg", CallOutcome.content cexPageContent)]
    (CallOutcome.content "s")
    ⟨cexPageContent, .inl (.obj
      [("title", .str "T"), ("date", .str "1-Jan-2024"),
       ("transcription", .str "text"), ("tags", .arr [.str "x"])]),
      true, "a.jpg"⟩
    [("title", .str "T"), ("date", .str "1-Jan-2024"),
     ("transcription", .str "text"), ("tags", .arr [.str "x"])]
    rfl rfl rfl
  exact ⟨rfl, h.1, h.2.1, h.2.2⟩

/-- C6.  Cache-hit idempotence: when the group's fingerprint is a key
of the loaded cache, the folder iteration serves the cached
DocumentRecord unchanged, performs zero model calls and writes nothing;
hence processing the same group twice in a row leaves the persisted
file untouched and yields the identical cached record both times, with
zero model calls in total. -/
theorem cache_hit_idempotent (responses file : List (String × DocumentRecord))
    (fp : String) (pairs : List (String × CallOutcome)) (s1 s2 : CallOutcome)
    (u : String) (cached : DocumentRecord)
    (hu : generate_uuid (pairs.map Prod.fst) modelName = .ok u)
    (hhit : lookupRec responses u = some cached) :
    processFolder responses fp pairs s1 = .ok (some ⟨cached, none, 0⟩) ∧
    runFolders responses file [(fp, pairs, s1), (fp, pairs, s2)] =
      .ok (file, [cached, cached], 0) := by
  have hne : pairs.isEmpty = false := by
    cases pairs with
    | nil => simp [generate_uuid] at hu
    | cons a t => rfl
  have hpf : ∀ s : CallOutcome,
      processFolder responses fp pairs s = .ok (some ⟨cached, none, 0⟩) := by
    intro s
    unfold processFolder
    rw [hne]
    simp only [Bool.false_eq_true, if_false, hu, hhit]
  refine ⟨hpf s1, ?_⟩
  have h1 : runFolders responses file [(fp, pairs, s2)] = .ok (file, [cached], 0) := by
    unfold runFolders
    simp only [hpf s2]
    rfl
  unfold runFolders
  simp only [hpf s1, h1]



theorem cache_hit_idempotent_witness :
    processFolder [(md5Hex "a.jpg-gpt-4o", ⟨none, none, []⟩)] "n1"
        [("a.jpg", CallOutcome.content "x")] (CallOutcome.content "s") =
      .ok (some ⟨⟨none, none, []⟩, none, 0⟩) ∧
    runFolders [(md5Hex "a.jpg-gpt-4o", ⟨none, none, []⟩)]
        [(md5Hex "a.jpg-gpt-4o", ⟨none, none, []⟩)]
        [("n1", [("a.jpg", CallOutcome.content "x")], CallOutcome.content "s"),
         ("n1", [("a.jpg", CallOutcome.content "x")], CallOutcome.content "s2")] =
      .ok ([(md5Hex "a.jpg-gpt-4o", ⟨none, none, []⟩)],
        [⟨none, none, []⟩, ⟨none, none, []⟩], 0) :=
  cache_hit_idempotent _ _ _ _ _ _ (md5Hex "a.jpg-gpt-4o") _ rfl
    (by unfold lookupRec; rw [if_pos rfl])

/-- C1 (code bug).  Storing one group's record rewrites the responses
file with `json.dump(response_dict, ...)`, where `response_dict` is the
fresh per-folder dict holding only this group's entry: after the first
(miss) group the file holds that group's entry, but after the second
(miss) group the file holds only the second entry — the first group's
committed record is gone, although its fingerprint differs. -/
theorem responses_file_overwrite_bug :
    (∃ d1, runFolders [] []
        [("n1", [("a.jpg", CallOutcome.content cexPageContent)], CallOutcome.content "s")] =
      .ok ([(md5Hex "a.jpg-gpt-4o", d1)], [d1], 1)) ∧
    (∃ d1 d2, runFolders [] []
        [("n1", [("a.jpg", CallOutcome.content cexPageContent)], CallOutcome.content "s"),
         ("n2", [("b.jpg", CallOutcome.content cexPageContent)], CallOutcome.content "s")] =
      .ok ([(md5Hex "b.jpg-gpt-4o", d2)], [d1, d2], 2) ∧
      lookupRec [(md5Hex "b.jpg-gpt-4o", d2)] (md5Hex "a.jpg-gpt-4o") = none) ∧
    md5Hex "a.jpg-gpt-4o" ≠ md5Hex "b.jpg-gpt-4o" := by
  refine ⟨⟨⟨none, none, [mkPageRecord "a.jpg" cexPageContent]⟩, rfl⟩,
    ⟨⟨none, none, [mkPageRecord "a.jpg" cexPageContent]⟩,
     ⟨none, none, [mkPageRecord "b.jpg" cexPageContent]⟩, rfl, ?_⟩, ?_⟩
  · unfold lookupRec
    rw [if_neg (by decide)]
    rfl
  · decide

/-- C3 (amended).  Per-page failure containment: an image whose model
reply is not parseable JSON is recorded as an invalid PageRecord and
the surrounding images are processed unaffected; an image whose model
call raises (network error) is skipped by the `except ... continue`
with no record at all, and the surrounding images are likewise
processed unaffected.  No single page's failure aborts the group's
page loop. -/
theorem page_failure_containment (pre post : List (String × CallOutcome))
    (fn c : String) (hbad : jsonParse (clean_json_text c) = none) :
    processPages (pre ++ [(fn, CallOutcome.content c)] ++ post) =
      processPages pre ++ [⟨c, .inr (clean_json_text c), false, fn⟩] ++
        processPages post ∧
    processPages (pre ++ [(fn, CallOutcome.raises)] ++ post) =
      processPages pre ++ processPages post := by
  constructor
  · simp [processPages, List.filterMap_append, List.filterMap_cons,
      mkPageRecord, hbad]
  · simp [processPages, List.filterMap_append, List.filterMap_cons]

/-- C3 counterexample: a page whose model call raises produces no
PageRecord at all — the claim's "records an invalid PageRecord" fails
for the network-error case. -/
theorem page_failure_raises_cex :
    processPages [("a.jpg", CallOutcome.raises)] = [] ∧
    ¬ ∃ r ∈ processPages [("a.jpg", CallOutcome.raises)], r.filename = "a.jpg" := by
  refine ⟨rfl, ?_⟩
  rintro ⟨r, hr, -⟩
  rw [show processPages [("a.jpg", CallOutcome.raises)] = [] from rfl] at hr
  exact absurd hr (List.not_mem_nil r)

theorem page_failure_containment_witness :
    processPages [("p1.jpg", CallOutcome.content cexPageContent),
        ("p2.jpg", CallOutcome.content "not json"),
        ("p3.jpg", CallOutcome.content cexPageContent)] =
      processPages [("p1.jpg", CallOutcome.content cexPageContent)] ++
        [⟨"not json", .inr (clean_json_text "not json"), false, "p2.jpg"⟩] ++
        processPages [("p3.jpg", CallOutcome.content cexPageContent)] ∧
    processPages [("p1.jpg", CallOutcome.content cexPageContent),
        ("p2.jpg", CallOutcome.raises),
        ("p3.jpg", CallOutcome.content cexPageContent)] =
      processPages [("p1.jpg", CallOutcome.content cexPageContent)] ++
        processPages [("p3.jpg", CallOutcome.content cexPageContent)] :=
  page_failure_containment [("p1.jpg", CallOutcome.content cexPageContent)]
    [("p3.jpg", CallOutcome.content cexPageContent)] "p2.jpg" "not json" rfl



/-! ## The orchestrator (`process_images` in app.py). -/

/-- Per-group outcome of the three subprocess stages inside the
per-group `try`: a non-zero returncode from resize, OCR or text
conversion, an exception raised inside the `try` (caught and recorded),
or success. -/
inductive GroupOutcome where
  | resizeFail
  | ocrFail
  | gptFail
  | success
  | raisedInTry (msg : String)
  deriving DecidableEq

/-- Folder names are reassigned `n1`, `n2`, … per run. -/
def groupLabel (i : Nat) : String := "n" ++ toString (i + 1)

/-- The `failed_groups` entry a group contributes, tagged with the
failing stage. -/
def failEntry (i : Nat) : GroupOutcome → Option String
  | .resizeFail => some (groupLabel i ++ " (image processing)")
  | .ocrFail => some (groupLabel i ++ " (OCR)")
  | .gptFail => some (groupLabel i ++ " (text conversion)")
  | .raisedInTry m => some (groupLabel i ++ " (error: " ++ m ++ ")")
  | .success => none

/-- The orchestrator's run progress, as updated by `process_images`. -/
structure RunProgress where
  status : String
  completed_groups : Nat
  failed_groups : List String
  percentage : Nat

/-- `process_images` from app.py, as a function of the per-group stage
outcomes and of an optional exception escaping to the outer handler
(anything raised outside the per-group `try`, e.g. during folder
setup): the final RunProgress and the HTTP status code.  An empty group
list returns 400 before progress is touched; the final progress update
sets status `"completed"` unconditionally after the loop; the response
code is 500 with zero successes, 207 with some failures, else 200; the
outer handler sets status `"error"` and returns 500. -/
def process_images (outerExc : Option String) (groups : List GroupOutcome) :
    RunProgress × Nat :=
  if groups.isEmpty then
    ({ status := "idle", completed_groups := 0, failed_groups := [],
       percentage := 0 }, 400)
  else
    match outerExc with
    | some m =>
      ({ status := "error", completed_groups := 0, failed_groups := [],
         percentage := 0 }, 500)
    | none =>
      let completed := (groups.filter (· = .success)).length
      let failed := groups.enum.filterMap (fun p => failEntry p.1 p.2)
      ({ status := "completed", completed_groups := completed,
         failed_groups := failed, percentage := 100 },
       if completed = 0 then 500 else if failed.isEmpty then 200 else 207)

/-- C2 (amended).  Final run status classification: after the group
loop finishes, the RunProgress status is `"completed"` unconditionally
— also when zero groups succeeded, where only the HTTP response code
(500) signals the failure; the progress status is `"error"` exactly
when an exception escapes the per-group try boundary to the outer
handler. -/
theorem process_images_final_status (groups : List GroupOutcome)
    (hne : groups ≠ []) :
    (process_images none groups).1.status = "completed" ∧
    ((process_images none groups).2 = 500 ↔
      (groups.filter (· = GroupOutcome.success)).length = 0) ∧
    ∀ m, (process_images (some m) groups).1.status = "error" := by
  have hemp : groups.isEmpty = false := by
    cases groups with
    | nil => exact absurd rfl hne
    | cons a t => rfl
  refine ⟨?_, ?_, ?_⟩
  · unfold process_images
    rw [hemp]
    rfl
  · unfold process_images
    rw [hemp]
    simp only [Bool.false_eq_true, if_false]
    by_cases hz : (groups.filter (· = GroupOutcome.success)).length = 0
    · simp [hz]
    · simp only [hz, if_neg hz, iff_false]
      by_cases hf : (groups.enum.filterMap (fun p => failEntry p.1 p.2)).isEmpty
      · simp [hf]
      · simp [hf]
  · intro m
    unfold process_images
    rw [hemp]
    rfl

/-- C2 counterexample: a run of one group whose OCR stage fails has
zero successful groups, yet the final RunProgress status is
`"completed"`, not the claimed `"error"` (the failure is signaled only
by the HTTP 500 response). -/
theorem process_images_zero_success_cex :
    (process_images none [GroupOutcome.ocrFail]).1.status = "completed" ∧
    (process_images none [GroupOutcome.ocrFail]).1.completed_groups = 0 ∧
    (process_images none [GroupOutcome.ocrFail]).2 = 500 ∧
    ("completed" : String) ≠ "error" :=
  ⟨rfl, rfl, rfl, by decide⟩

theorem process_images_final_status_witness :
    (process_images none [GroupOutcome.ocrFail, GroupOutcome.success]).1.status =
      "completed" ∧
    ((process_images none [GroupOutcome.ocrFail, GroupOutcome.success]).2 = 500 ↔
      (([GroupOutcome.ocrFail, GroupOutcome.success].filter
        (· = GroupOutcome.success)).length = 0)) ∧
    ∀ m, (process_images (some m)
      [GroupOutcome.ocrFail, GroupOutcome.success]).1.status = "error" :=
  process_images_final_status _ (by decide)


end Transcriber
